import Mathlib

/-
Verification of the pattern-matching core of config-secret-rs
(src/secret.rs, EnvironmentSecretFile::collect).

Strings are modelled as lists of characters; Rust's to_lowercase is
modelled as per-character ASCII lowering (all patterns and keys of
interest are ASCII).  Rust slices strings by bytes, but every slice in
collect removes a pattern that was just checked with starts_with or
ends_with, so the byte boundaries coincide with character boundaries and
the character-list model is exact.

The Document Loader (config::File::collect) is an external collaborator:
it is passed in as a function from a path to Except, returning the
loaded file's top-level map.  Loaded values are opaque to collect, so
they are a type parameter.  The result map (config::Map) is modelled as
an association list with unique keys; insertKV overwrites the existing
binding, matching HashMap/IndexMap insert.

The configuration struct's field names prefix / prefix_separator /
suffix / suffix_separator / separator / keep_prefix are Lean keywords or
clash with reserved words, so they are shortened to pfx / pfxSep / sfx /
sfxSep / sep / keepPfx.
-/

/-- Strings as character lists. -/
abbrev Str : Type := List Char

/-- Turn a string literal into the character-list model. -/
def str (s : String) : Str := s.data

/-- Rust str::to_lowercase, modelled per character (ASCII). -/
def toLower (s : Str) : Str := s.map Char.toLower

/-- The EnvironmentSecretFile configuration struct (src/secret.rs lines 5-43). -/
structure Config where
  pfx : Option Str
  pfxSep : Option Str
  sfx : Option Str
  sfxSep : Option Str
  sep : Option Str
  keepPfx : Bool

/-- Config::default(): every option unset, keep_prefix false. -/
def cfgDefault : Config := ⟨none, none, none, none, none, false⟩

/-- Resolved separator: self.separator.as_deref().unwrap_or("") (line 92). -/
def resolveSep (cfg : Config) : Str := cfg.sep.getD []

/-- Resolved prefix separator (lines 93-97): explicit, else separator, else "_". -/
def resolvePfxSep (cfg : Config) : Str :=
  match cfg.pfxSep, cfg.sep with
  | some p, _ => p
  | none, some s => s
  | none, none => str "_"

/-- Resolved suffix separator (lines 98-102): explicit, else separator, else "_". -/
def resolveSfxSep (cfg : Config) : Str :=
  match cfg.sfxSep, cfg.sep with
  | some p, _ => p
  | none, some s => s
  | none, none => str "_"

/-- Resolved suffix (line 109): explicit, else "FILE". -/
def resolveSfx (cfg : Config) : Str := cfg.sfx.getD (str "FILE")

/-- prefix_pattern (lines 104-107): lowercase(prefix + prefix_separator) when prefix set. -/
def pfxPattern (cfg : Config) : Option Str :=
  cfg.pfx.map (fun p => toLower (p ++ resolvePfxSep cfg))

/-- suffix_pattern (line 110): lowercase(suffix_separator + suffix). -/
def sfxPattern (cfg : Config) : Str :=
  toLower (resolveSfxSep cfg ++ resolveSfx cfg)

/-- full_pattern (lines 112-120).  Note: the source lowercases only the
branch where the two resolved separators are equal; the other two
branches keep the original case. -/
def fullPattern (cfg : Config) : Str :=
  match cfg.pfx with
  | some p =>
    if resolvePfxSep cfg = resolveSfxSep cfg then
      toLower (p ++ resolvePfxSep cfg ++ resolveSfx cfg)
    else
      p ++ resolveSfx cfg
  | none => resolveSfx cfg

/-- Values stored in the result map: either a value taken unchanged from
a loaded file (full-pattern branch, lines 144-146), or a table wrapping
a loaded map tagged with an origin uri (lines 190-191). -/
inductive RVal (α : Type) where
  | raw : α → RVal α
  | tagged : Str → List (Str × α) → RVal α
deriving DecidableEq, Repr

/-- Map insert with overwrite: the result keeps one binding per key and
the latest insert wins, matching config::Map (HashMap / IndexMap). -/
def insertKV {β : Type} (m : List (Str × β)) (k : Str) (v : β) : List (Str × β) :=
  match m with
  | [] => [(k, v)]
  | (k', w) :: rest => if k' = k then (k, v) :: rest else (k', w) :: insertKV rest k v

/-- First-match association-list lookup. -/
def lookupKV {β : Type} (m : List (Str × β)) (k : Str) : Option β :=
  match m with
  | [] => none
  | (k', v) :: rest => if k' = k then some v else lookupKV rest k

/-- Last binding of a key in a (possibly duplicated) list of pairs. -/
def lookupLast {β : Type} (m : List (Str × β)) (k : Str) : Option β :=
  match m with
  | [] => none
  | (k', v) :: rest =>
    match lookupLast rest k with
    | some w => some w
    | none => if k' = k then some v else none

/-- The full-pattern merge loop (lines 144-146): insert every top-level
key of the loaded map into the result, unchanged. -/
def foldRaw {α : Type} (m : List (Str × RVal α)) (mp : List (Str × α)) :
    List (Str × RVal α) :=
  mp.foldl (fun acc p => insertKV acc p.1 (RVal.raw p.2)) m

/-- Worker for replaceSep, structurally recursive on a fuel argument so
that the kernel can evaluate it; each step consumes at least one
character, so fuel equal to the string length is always enough. -/
def replaceSepFuel (sep : Str) : Nat → Str → Str
  | _, [] => []
  | 0, s => s
  | fuel + 1, c :: cs =>
    if sep.isPrefixOf (c :: cs) ∧ 0 < sep.length then
      '.' :: replaceSepFuel sep fuel (cs.drop (sep.length - 1))
    else
      c :: replaceSepFuel sep fuel cs

/-- str::replace(separator, ".") on the character-list model: replace
every non-overlapping occurrence of sep, leftmost first, by '.'.
(collect only calls this with a non-empty separator; for an empty
separator this model is the identity.) -/
def replaceSep (sep s : Str) : Str := replaceSepFuel sep s.length s

/-- Separator-to-dot translation (lines 180-182): applied only when the
resolved separator is non-empty. -/
def translateKey (cfg : Config) (key : Str) : Str :=
  if resolveSep cfg = [] then key else replaceSep (resolveSep cfg) key

/-- Prefix check and strip (lines 156-167): when a prefix pattern is
configured the key must start with it; the pattern is stripped from the
front unless keep_prefix is set.  none means the variable is skipped. -/
def checkPfx (cfg : Config) (key : Str) : Option Str :=
  match pfxPattern cfg with
  | some pp =>
    if pp.isPrefixOf key then
      some (if cfg.keepPfx then key else key.drop pp.length)
    else none
  | none => some key

/-- Suffix check and strip (lines 169-177): the key must end with the
suffix pattern, which is stripped from the end.  none means skipped. -/
def checkSfx (cfg : Config) (key : Str) : Option Str :=
  if (sfxPattern cfg).isSuffixOf key then
    some (key.take (key.length - (sfxPattern cfg).length))
  else none

/-- State threaded through the environment iteration: the result map so
far and the first recorded loader error, if any. -/
abbrev CState (ε α : Type) : Type := List (Str × RVal α) × Option ε

/-- The body of the env::vars().for_each closure (lines 124-197) for a
single (name, value) pair. -/
def step {ε α : Type} (cfg : Config) (loader : Str → Except ε (List (Str × α)))
    (st : CState ε α) (kv : Str × Str) : CState ε α :=
  match st.2 with
  | some _ => st
  | none =>
    if kv.2 = [] then st
    else
      let key := toLower kv.1
      if key = fullPattern cfg then
        match loader kv.2 with
        | Except.ok mp => (foldRaw st.1 mp, none)
        | Except.error e => (st.1, some e)
      else
        match checkPfx cfg key with
        | none => st
        | some key1 =>
          match checkSfx cfg key1 with
          | none => st
          | some key2 =>
            let key3 := translateKey cfg key2
            match loader kv.2 with
            | Except.ok mp =>
              let uri := str "secret:" ++ key3 ++ str ":" ++ kv.2
              (insertKV st.1 key3 (RVal.tagged uri mp), none)
            | Except.error e => (st.1, some e)

/-- EnvironmentSecretFile::collect (lines 89-203), with the environment
snapshot passed explicitly in iteration order. -/
def collect {ε α : Type} (cfg : Config) (loader : Str → Except ε (List (Str × α)))
    (env : List (Str × Str)) : Except ε (List (Str × RVal α)) :=
  match (env.foldl (step cfg loader) ([], none)).2 with
  | some e => Except.error e
  | none => Except.ok (env.foldl (step cfg loader) ([], none)).1

/-- True when processing this (name, value) pair reaches a loader call:
non-empty value and either a full-pattern match or passing both the
prefix and the suffix check. -/
def triggersLoad (cfg : Config) (kv : Str × Str) : Bool :=
  if kv.2 = [] then false
  else if toLower kv.1 = fullPattern cfg then true
  else
    match checkPfx cfg (toLower kv.1) with
    | none => false
    | some key1 => (checkSfx cfg key1).isSome

/-- Whether an Except is a success. -/
def exceptOk {ε β : Type} : Except ε β → Bool
  | Except.ok _ => true
  | Except.error _ => false

/-- True when this pair reaches a loader call and the loader fails. -/
def failsLoad {ε α : Type} (cfg : Config) (loader : Str → Except ε (List (Str × α)))
    (kv : Str × Str) : Bool :=
  triggersLoad cfg kv && !(exceptOk (loader kv.2))

/-
Helper lemmas about the iteration.
-/

/-- Once an error is recorded the state is frozen (lines 126-128). -/
lemma step_frozen {ε α : Type} (cfg : Config) (loader : Str → Except ε (List (Str × α)))
    (m : List (Str × RVal α)) (e : ε) (kv : Str × Str) :
    step cfg loader (m, some e) kv = (m, some e) := rfl

/-- A whole fold from a frozen state stays frozen. -/
lemma foldl_frozen {ε α : Type} (cfg : Config) (loader : Str → Except ε (List (Str × α)))
    (env : List (Str × Str)) (m : List (Str × RVal α)) (e : ε) :
    env.foldl (step cfg loader) (m, some e) = (m, some e) := by
  induction env with
  | nil => rfl
  | cons a rest ih => rw [List.foldl_cons, step_frozen]; exact ih

/-- A variable with an empty value never changes the state (lines 130-133). -/
lemma step_empty_value {ε α : Type} (cfg : Config) (loader : Str → Except ε (List (Str × α)))
    (st : CState ε α) (n : Str) :
    step cfg loader st (n, []) = st := by
  obtain ⟨m, err⟩ := st
  cases err with
  | some e => rfl
  | none => simp [step]

/-- A full-pattern match with a successful load merges the loaded map
flat into the result (lines 137-147). -/
lemma step_full {ε α : Type} (cfg : Config) (loader : Str → Except ε (List (Str × α)))
    (m : List (Str × RVal α)) (n v : Str) (mp : List (Str × α))
    (hv : v ≠ []) (hfull : toLower n = fullPattern cfg)
    (hl : loader v = Except.ok mp) :
    step cfg loader (m, none) (n, v) = (foldRaw m mp, none) := by
  simp [step, hv, hfull, hl]

/-- A variable passing the prefix and suffix checks with a successful
load inserts a tagged table at the translated key (lines 156-196). -/
lemma step_nested {ε α : Type} (cfg : Config) (loader : Str → Except ε (List (Str × α)))
    (m : List (Str × RVal α)) (n v key1 key2 : Str) (mp : List (Str × α))
    (hv : v ≠ []) (hfull : toLower n ≠ fullPattern cfg)
    (hp : checkPfx cfg (toLower n) = some key1)
    (hs : checkSfx cfg key1 = some key2)
    (hl : loader v = Except.ok mp) :
    step cfg loader (m, none) (n, v) =
      (insertKV m (translateKey cfg key2)
        (RVal.tagged (str "secret:" ++ translateKey cfg key2 ++ str ":" ++ v) mp), none) := by
  simp [step, hv, hfull, hp, hs, hl]

/-- A variable that reaches the loader and whose load fails records that
error and leaves the map unchanged (lines 148-150 and 193-195). -/
lemma step_err_of_fails {ε α : Type} (cfg : Config) (loader : Str → Except ε (List (Str × α)))
    (m : List (Str × RVal α)) (kv : Str × Str) (e : ε)
    (ht : triggersLoad cfg kv = true) (hl : loader kv.2 = Except.error e) :
    step cfg loader (m, none) kv = (m, some e) := by
  obtain ⟨n, v⟩ := kv
  by_cases hv : v = []
  · simp [triggersLoad, hv] at ht
  · by_cases hfull : toLower n = fullPattern cfg
    · simp [step, hv, hfull, hl] at hl ⊢
    · cases hp : checkPfx cfg (toLower n) with
      | none => simp [triggersLoad, hv, hfull, hp] at ht
      | some key1 =>
        cases hs : checkSfx cfg key1 with
        | none => simp [triggersLoad, hv, hfull, hp, hs] at ht
        | some key2 => simp [step, hv, hfull, hp, hs, hl] at hl ⊢

/-- A variable that does not fail its load leaves no error in the state. -/
lemma step_none_of_not_fails {ε α : Type} (cfg : Config)
    (loader : Str → Except ε (List (Str × α)))
    (m : List (Str × RVal α)) (kv : Str × Str)
    (hf : failsLoad cfg loader kv = false) :
    ∃ m2, step cfg loader (m, none) kv = (m2, none) := by
  obtain ⟨n, v⟩ := kv
  by_cases hv : v = []
  · subst hv
    exact ⟨m, step_empty_value cfg loader (m, none) n⟩
  · by_cases hfull : toLower n = fullPattern cfg
    · have ht : triggersLoad cfg (n, v) = true := by simp [triggersLoad, hv, hfull]
      cases hlv : loader v with
      | ok mp => exact ⟨foldRaw m mp, step_full cfg loader m n v mp hv hfull hlv⟩
      | error e =>
        unfold failsLoad at hf
        rw [ht, hlv] at hf
        simp [exceptOk] at hf
    · cases hp : checkPfx cfg (toLower n) with
      | none => exact ⟨m, by simp [step, hv, hfull, hp]⟩
      | some key1 =>
        cases hs : checkSfx cfg key1 with
        | none => exact ⟨m, by simp [step, hv, hfull, hp, hs]⟩
        | some key2 =>
          have ht : triggersLoad cfg (n, v) = true := by
            simp [triggersLoad, hv, hfull, hp, hs]
          cases hlv : loader v with
          | ok mp => exact ⟨_, step_nested cfg loader m n v key1 key2 mp hv hfull hp hs hlv⟩
          | error e =>
            unfold failsLoad at hf
            rw [ht, hlv] at hf
            simp [exceptOk] at hf

/-- Core fail-fast invariant of the iteration: if no variable both
reaches the loader and fails, the fold ends without error; otherwise the
fold ends carrying exactly the error of the first such variable. -/
lemma collect_fold_find {ε α : Type} (cfg : Config)
    (loader : Str → Except ε (List (Str × α))) :
    ∀ (env : List (Str × Str)) (m : List (Str × RVal α)),
      (env.find? (failsLoad cfg loader) = none →
        (env.foldl (step cfg loader) (m, none)).2 = none) ∧
      (∀ kv, env.find? (failsLoad cfg loader) = some kv →
        ∃ e, loader kv.2 = Except.error e ∧
          ∃ m2, env.foldl (step cfg loader) (m, none) = (m2, some e)) := by
  intro env
  induction env with
  | nil =>
    intro m
    constructor
    · intro _; rfl
    · intro kv h; simp [List.find?] at h
  | cons a rest ih =>
    intro m
    by_cases hf : failsLoad cfg loader a = true
    · constructor
      · intro h
        rw [List.find?_cons_of_pos _ hf] at h
        cases h
      · intro kv h
        rw [List.find?_cons_of_pos _ hf] at h
        injection h with h
        subst h
        have ht : triggersLoad cfg a = true := by
          unfold failsLoad at hf
          exact (Bool.and_eq_true _ _).mp hf |>.1
        have herr : exceptOk (loader a.2) = false := by
          unfold failsLoad at hf
          have := (Bool.and_eq_true _ _).mp hf |>.2
          simpa using this
        cases hlv : loader a.2 with
        | ok mp => rw [hlv] at herr; simp [exceptOk] at herr
        | error e =>
          refine ⟨e, rfl, m, ?_⟩
          rw [List.foldl_cons, step_err_of_fails cfg loader m a e ht hlv, foldl_frozen]
    · have hf2 : failsLoad cfg loader a = false := by
        simpa using hf
      obtain ⟨m2, hm2⟩ := step_none_of_not_fails cfg loader m a hf2
      have hneg : ¬(failsLoad cfg loader a = true) := by simp [hf2]
      constructor
      · intro h
        rw [List.find?_cons_of_neg _ hneg] at h
        rw [List.foldl_cons, hm2]
        exact (ih m2).1 h
      · intro kv h
        rw [List.find?_cons_of_neg _ hneg] at h
        rw [List.foldl_cons, hm2]
        exact (ih m2).2 kv h

/-- Lookup after an overwriting insert: the inserted binding wins, other
keys are unchanged. -/
lemma lookupKV_insertKV {β : Type} (m : List (Str × β)) (k : Str) (v : β) (k' : Str) :
    lookupKV (insertKV m k v) k' = if k' = k then some v else lookupKV m k' := by
  induction m with
  | nil =>
    simp only [insertKV, lookupKV]
    by_cases h : k = k'
    · subst h; simp
    · simp [h, Ne.symm h]
  | cons a rest ih =>
    obtain ⟨k1, w⟩ := a
    simp only [insertKV]
    by_cases h1 : k1 = k
    · subst h1
      simp only [if_pos rfl, lookupKV]
      by_cases h2 : k1 = k'
      · subst h2; simp
      · simp [h2, Ne.symm h2]
    · rw [if_neg h1]
      by_cases h3 : k1 = k'
      · subst h3
        simp [lookupKV, h1, Ne.symm h1]
      · simp [lookupKV, h3, ih]

/-- Lookup in a flat merge: the last binding of the key in the loaded
map wins; keys absent from the loaded map fall back to the old map. -/
lemma lookupKV_foldRaw {α : Type} (mp : List (Str × α)) :
    ∀ (m : List (Str × RVal α)) (k : Str),
      lookupKV (foldRaw m mp) k =
        match lookupLast mp k with
        | some w => some (RVal.raw w)
        | none => lookupKV m k := by
  induction mp with
  | nil => intro m k; rfl
  | cons a rest ih =>
    intro m k
    obtain ⟨k1, w1⟩ := a
    have hfold : foldRaw m ((k1, w1) :: rest) = foldRaw (insertKV m k1 (RVal.raw w1)) rest := rfl
    rw [hfold, ih]
    cases hL : lookupLast rest k with
    | some w => simp [lookupLast, hL]
    | none =>
      rw [lookupKV_insertKV]
      by_cases h : k = k1
      · subst h; simp [lookupLast, hL]
      · simp [lookupLast, hL, h, Ne.symm h]

/-
Concrete configurations and loaders used in the claims and witnesses.
-/

/-- Prefix C with a "-" prefix separator and a "." suffix separator:
the two resolved separators differ. -/
def cfg3 : Config := ⟨some (str "C"), some (str "-"), none, some (str "."), none, false⟩

/-- Prefix P, suffix FILE, everything else at its default (the effective
prefix and suffix separator is the default "_", the separator field is
unset). -/
def cfg4 : Config := ⟨some (str "P"), none, some (str "FILE"), none, none, false⟩

/-- Same as cfg4 but with keep_prefix set. -/
def cfg4k : Config := ⟨some (str "P"), none, some (str "FILE"), none, none, true⟩

/-- Prefix C with separator "_". -/
def cfg8a : Config := ⟨some (str "C"), none, none, none, some (str "_"), false⟩

/-- Prefix C with separator ".". -/
def cfg8b : Config := ⟨some (str "C"), none, none, none, some (str "."), false⟩

/-- Prefix C with separator "_" and keep_prefix set. -/
def cfg10 : Config := ⟨some (str "C"), none, none, none, some (str "_"), true⟩

/-- Prefix f with separator "_": its full pattern is all lower-case. -/
def cfgF : Config := ⟨some (str "f"), none, none, none, some (str "_"), false⟩

/-- A loader that always succeeds with a one-key table. -/
def ldOk : Str → Except Nat (List (Str × Nat)) := fun _ => Except.ok [(str "k", 7)]

/-- A loader that always fails with error 7. -/
def ldErr7 : Str → Except Nat (List (Str × Nat)) := fun _ => Except.error 7

/-- A loader returning different tables for the two paths /f1 and /f2,
with the key k present in both. -/
def ldC5 : Str → Except Nat (List (Str × Nat)) := fun p =>
  if p = str "/f1" then Except.ok [(str "a", 1), (str "k", 2)]
  else Except.ok [(str "k", 9)]

/-- Claim C1: matching is claimed to be entirely case-insensitive, with
the variable name and all computed patterns (including full_pattern in
every construction branch) lower-cased before comparison.  The code
violates this for full_pattern: under the default configuration (no
prefix, default suffix FILE) full_pattern stays "FILE" un-lowered, and
since the variable name is always lowered before the comparison, neither
FILE nor file can ever match the full pattern — the variable is silently
skipped instead of being merged flat. -/
theorem C1_case_fold_divergence :
    fullPattern cfgDefault = str "FILE" ∧
    toLower (fullPattern cfgDefault) ≠ fullPattern cfgDefault ∧
    collect cfgDefault ldOk [(str "FILE", str "/s.json")] = Except.ok [] ∧
    collect cfgDefault ldOk [(str "file", str "/s.json")] = Except.ok [] := by
  refine ⟨rfl, by decide, rfl, rfl⟩

/-- Claim C3: full_pattern is claimed to be the lower-cased variable
name in all three construction branches.  The construction shape
(collapse with the shared separator only when the resolved separators
are equal, else plain prefix-plus-suffix concatenation) matches the
code, but when the separators differ the code does not lower-case the
result: with prefix C, prefix separator "-" and suffix separator ".",
full_pattern is "CFILE", which the always-lowered variable name can
never equal, so CFILE and cfile are both skipped. -/
theorem C3_full_pattern_divergence :
    resolvePfxSep cfg3 ≠ resolveSfxSep cfg3 ∧
    fullPattern cfg3 = str "C" ++ resolveSfx cfg3 ∧
    fullPattern cfg3 = str "CFILE" ∧
    toLower (fullPattern cfg3) ≠ fullPattern cfg3 ∧
    collect cfg3 ldOk [(str "CFILE", str "/s.json")] = Except.ok [] ∧
    collect cfg3 ldOk [(str "cfile", str "/s.json")] = Except.ok [] := by
  refine ⟨by decide, rfl, rfl, by decide, rfl, rfl⟩

/-- Claim C6: an environment variable with an empty value is skipped
entirely — removing it from the snapshot leaves the result of collect
unchanged, whatever its name and wherever it sits in iteration order. -/
theorem C6_empty_value_skipped {ε α : Type} (cfg : Config)
    (loader : Str → Except ε (List (Str × α)))
    (env₁ env₂ : List (Str × Str)) (n : Str) :
    collect cfg loader (env₁ ++ (n, []) :: env₂) = collect cfg loader (env₁ ++ env₂) := by
  unfold collect
  rw [List.foldl_append, List.foldl_append, List.foldl_cons, step_empty_value]

/-- Claim C2: collect succeeds exactly when no variable that reaches the
loader fails its load; otherwise it returns the error of the first such
variable in iteration order (later variables are not processed — the
state is frozen after the first failure) and the caller receives no
partial tree, only the error. -/
theorem C2_first_error_wins {ε α : Type} (cfg : Config)
    (loader : Str → Except ε (List (Str × α))) (env : List (Str × Str)) :
    (env.find? (failsLoad cfg loader) = none →
      ∃ t, collect cfg loader env = Except.ok t) ∧
    (∀ kv, env.find? (failsLoad cfg loader) = some kv →
      ∃ e, loader kv.2 = Except.error e ∧ collect cfg loader env = Except.error e) := by
  constructor
  · intro h
    have h2 := ((collect_fold_find cfg loader) env []).1 h
    unfold collect
    rcases hst : env.foldl (step cfg loader) ([], none) with ⟨m2, err⟩
    rw [hst] at h2
    simp only at h2
    subst h2
    exact ⟨m2, rfl⟩
  · intro kv h
    obtain ⟨e, he, m2, hm2⟩ := ((collect_fold_find cfg loader) env []).2 kv h
    refine ⟨e, he, ?_⟩
    unfold collect
    rw [hm2]

/-- Witness for C2 at a concrete input: with prefix P and a loader that
always fails with error 7, the variable P_X_FILE reaches the loader,
its failure is the first one, and collect returns exactly that error. -/
theorem C2_first_error_wins_witness :
    ∃ e, ldErr7 (str "P_X_FILE", str "/f").2 = Except.error e ∧
      collect cfg4 ldErr7 [(str "P_X_FILE", str "/f")] = Except.error e :=
  (C2_first_error_wins cfg4 ldErr7 [(str "P_X_FILE", str "/f")]).2
    (str "P_X_FILE", str "/f") (by decide)

/-- Claim C4: with prefix P, suffix FILE and the default separators, a
variable P_X_FILE pointing at a loadable file yields exactly the key x
(prefix and suffix stripped) holding the tagged nested table, and with
keep_prefix set it yields exactly the key p_x. -/
theorem C4_prefix_strip_keys {ε α : Type} (loader : Str → Except ε (List (Str × α)))
    (v : Str) (mp : List (Str × α)) (hv : v ≠ []) (hl : loader v = Except.ok mp) :
    collect cfg4 loader [(str "P_X_FILE", v)] =
      Except.ok [(str "x", RVal.tagged (str "secret:" ++ str "x" ++ str ":" ++ v) mp)] ∧
    collect cfg4k loader [(str "P_X_FILE", v)] =
      Except.ok [(str "p_x", RVal.tagged (str "secret:" ++ str "p_x" ++ str ":" ++ v) mp)] := by
  constructor
  · unfold collect
    rw [List.foldl_cons, List.foldl_nil,
      step_nested cfg4 loader [] (str "P_X_FILE") v (str "x_file") (str "x") mp hv
        (by decide) (by decide) (by decide) hl]
    rfl
  · unfold collect
    rw [List.foldl_cons, List.foldl_nil,
      step_nested cfg4k loader [] (str "P_X_FILE") v (str "p_x_file") (str "p_x") mp hv
        (by decide) (by decide) (by decide) hl]
    rfl

/-- Witness for C4 at a concrete loadable file. -/
theorem C4_prefix_strip_keys_witness :
    collect cfg4 ldOk [(str "P_X_FILE", str "/f")] =
      Except.ok [(str "x",
        RVal.tagged (str "secret:" ++ str "x" ++ str ":" ++ str "/f") [(str "k", 7)])] ∧
    collect cfg4k ldOk [(str "P_X_FILE", str "/f")] =
      Except.ok [(str "p_x",
        RVal.tagged (str "secret:" ++ str "p_x" ++ str ":" ++ str "/f") [(str "k", 7)])] :=
  C4_prefix_strip_keys ldOk (str "/f") [(str "k", 7)] (by decide) rfl

/-- Claim C5: variables whose lowered name equals the full pattern load
their file and merge every top-level key of the loaded tree directly
into the result — unwrapped and untagged (RVal.raw) — and when two such
variables supply the same key, the one later in iteration order wins;
keys only in the earlier file survive. -/
theorem C5_full_pattern_flat_merge {ε α : Type} (cfg : Config)
    (loader : Str → Except ε (List (Str × α)))
    (n₁ v₁ n₂ v₂ : Str) (mp₁ mp₂ : List (Str × α))
    (h1 : toLower n₁ = fullPattern cfg) (h2 : toLower n₂ = fullPattern cfg)
    (hv1 : v₁ ≠ []) (hv2 : v₂ ≠ [])
    (hl1 : loader v₁ = Except.ok mp₁) (hl2 : loader v₂ = Except.ok mp₂) :
    collect cfg loader [(n₁, v₁), (n₂, v₂)] =
      Except.ok (foldRaw (foldRaw [] mp₁) mp₂) ∧
    ∀ k, lookupKV (foldRaw (foldRaw [] mp₁) mp₂) k =
      match lookupLast mp₂ k with
      | some w => some (RVal.raw w)
      | none =>
        match lookupLast mp₁ k with
        | some w => some (RVal.raw w)
        | none => none := by
  constructor
  · unfold collect
    rw [List.foldl_cons, step_full cfg loader [] n₁ v₁ mp₁ hv1 h1 hl1,
      List.foldl_cons, List.foldl_nil,
      step_full cfg loader (foldRaw [] mp₁) n₂ v₂ mp₂ hv2 h2 hl2]
  · intro k
    rw [lookupKV_foldRaw, lookupKV_foldRaw]
    cases lookupLast mp₂ k with
    | some w => rfl
    | none =>
      cases lookupLast mp₁ k with
      | some w => rfl
      | none => rfl

/-- Witness for C5: prefix f with separator "_" makes the full pattern
f_file; the variables F_FILE and f_file both match it, their files merge
flat, and the later file's binding for the shared key k wins. -/
theorem C5_full_pattern_flat_merge_witness :
    collect cfgF ldC5 [(str "F_FILE", str "/f1"), (str "f_file", str "/f2")] =
      Except.ok (foldRaw (foldRaw [] [(str "a", 1), (str "k", 2)]) [(str "k", 9)]) :=
  (C5_full_pattern_flat_merge cfgF ldC5 (str "F_FILE") (str "/f1") (str "f_file") (str "/f2")
    [(str "a", 1), (str "k", 2)] [(str "k", 9)]
    (by decide) (by decide) (by decide) (by decide) rfl rfl).1

/-- Claim C7: the defaults resolve before any variable is examined:
suffix defaults to FILE; each of prefix_separator and suffix_separator
takes its explicitly set value first, else the configured separator,
else "_"; and an unset separator resolves to the empty string, which
disables separator-to-dot translation so the stripped key passes
through verbatim. -/
theorem C7_default_resolution (cfg : Config) :
    (cfg.sfx = none → resolveSfx cfg = str "FILE") ∧
    (∀ s, cfg.pfxSep = some s → resolvePfxSep cfg = s) ∧
    (∀ s, cfg.sfxSep = some s → resolveSfxSep cfg = s) ∧
    (∀ s, cfg.pfxSep = none → cfg.sep = some s → resolvePfxSep cfg = s) ∧
    (∀ s, cfg.sfxSep = none → cfg.sep = some s → resolveSfxSep cfg = s) ∧
    (cfg.pfxSep = none → cfg.sep = none → resolvePfxSep cfg = str "_") ∧
    (cfg.sfxSep = none → cfg.sep = none → resolveSfxSep cfg = str "_") ∧
    (cfg.sep = none → resolveSep cfg = [] ∧ ∀ k, translateKey cfg k = k) := by
  refine ⟨?_, ?_, ?_, ?_, ?_, ?_, ?_, ?_⟩
  · intro h; simp [resolveSfx, h]
  · intro s h; simp [resolvePfxSep, h]
  · intro s h; simp [resolveSfxSep, h]
  · intro s h1 h2; simp [resolvePfxSep, h1, h2]
  · intro s h1 h2; simp [resolveSfxSep, h1, h2]
  · intro h1 h2; simp [resolvePfxSep, h1, h2]
  · intro h1 h2; simp [resolveSfxSep, h1, h2]
  · intro h
    have hs : resolveSep cfg = [] := by simp [resolveSep, h]
    exact ⟨hs, fun k => by simp [translateKey, hs]⟩

/-- Witness for C7 on the default configuration plus one configuration
with an explicit separator reused for both sides. -/
theorem C7_default_resolution_witness :
    resolveSfx cfgDefault = str "FILE" ∧
    resolvePfxSep cfgDefault = str "_" ∧
    resolveSfxSep cfgDefault = str "_" ∧
    resolvePfxSep cfg8b = str "." ∧
    resolveSfxSep cfg8b = str "." ∧
    resolvePfxSep cfg3 = str "-" ∧
    resolveSfxSep cfg3 = str "." ∧
    (resolveSep cfgDefault = [] ∧ ∀ k, translateKey cfgDefault k = k) :=
  ⟨(C7_default_resolution cfgDefault).1 rfl,
   (C7_default_resolution cfgDefault).2.2.2.2.2.1 rfl rfl,
   (C7_default_resolution cfgDefault).2.2.2.2.2.2.1 rfl rfl,
   (C7_default_resolution cfg8b).2.2.2.1 (str ".") rfl rfl,
   (C7_default_resolution cfg8b).2.2.2.2.1 (str ".") rfl rfl,
   (C7_default_resolution cfg3).2.1 (str "-") rfl,
   (C7_default_resolution cfg3).2.2.1 (str ".") rfl,
   (C7_default_resolution cfgDefault).2.2.2.2.2.2.2 rfl⟩

/-- Claim C8: for any loadable file, C_B_A_FILE collected with prefix C
and separator "_" gives the same result as C.B.A.FILE collected with
prefix C and separator "." — both produce the key b.a holding the same
tagged table. -/
theorem C8_separator_renaming {ε α : Type} (loader : Str → Except ε (List (Str × α)))
    (v : Str) (mp : List (Str × α)) (hv : v ≠ []) (hl : loader v = Except.ok mp) :
    collect cfg8a loader [(str "C_B_A_FILE", v)] =
      collect cfg8b loader [(str "C.B.A.FILE", v)] ∧
    collect cfg8a loader [(str "C_B_A_FILE", v)] =
      Except.ok [(str "b.a", RVal.tagged (str "secret:" ++ str "b.a" ++ str ":" ++ v) mp)] := by
  have ha : collect cfg8a loader [(str "C_B_A_FILE", v)] =
      Except.ok [(str "b.a", RVal.tagged (str "secret:" ++ str "b.a" ++ str ":" ++ v) mp)] := by
    unfold collect
    rw [List.foldl_cons, List.foldl_nil,
      step_nested cfg8a loader [] (str "C_B_A_FILE") v (str "b_a_file") (str "b_a") mp hv
        (by decide) (by decide) (by decide) hl]
    rfl
  have hb : collect cfg8b loader [(str "C.B.A.FILE", v)] =
      Except.ok [(str "b.a", RVal.tagged (str "secret:" ++ str "b.a" ++ str ":" ++ v) mp)] := by
    unfold collect
    rw [List.foldl_cons, List.foldl_nil,
      step_nested cfg8b loader [] (str "C.B.A.FILE") v (str "b.a.file") (str "b.a") mp hv
        (by decide) (by decide) (by decide) hl]
    rfl
  exact ⟨ha.trans hb.symm, ha⟩

/-- Witness for C8 at a concrete loadable file. -/
theorem C8_separator_renaming_witness :
    collect cfg8a ldOk [(str "C_B_A_FILE", str "/f")] =
      collect cfg8b ldOk [(str "C.B.A.FILE", str "/f")] ∧
    collect cfg8a ldOk [(str "C_B_A_FILE", str "/f")] =
      Except.ok [(str "b.a",
        RVal.tagged (str "secret:" ++ str "b.a" ++ str ":" ++ str "/f") [(str "k", 7)])] :=
  C8_separator_renaming ldOk (str "/f") [(str "k", 7)] (by decide) rfl

/-- Claim C9: the stripping in checkPfx and checkSfx is exact and safe —
whenever the prefix check succeeds, the returned key is either the
unchanged key (keep_prefix) or the exact remainder after the checked
prefix pattern, and whenever the suffix check succeeds the returned key
is the exact remainder before the checked suffix pattern; both slices
fall on character boundaries by construction and the functions are
total. -/
theorem C9_strip_exact (cfg : Config) (key key1 key2 : Str)
    (h1 : checkPfx cfg key = some key1) (h2 : checkSfx cfg key1 = some key2) :
    (match pfxPattern cfg with
     | some pp => if cfg.keepPfx then key1 = key else pp ++ key1 = key
     | none => key1 = key) ∧
    key2 ++ sfxPattern cfg = key1 := by
  constructor
  · cases hpp : pfxPattern cfg with
    | none =>
      simp only [checkPfx, hpp, Option.some.injEq] at h1
      exact h1.symm
    | some pp =>
      simp only [checkPfx, hpp] at h1
      by_cases hpre : pp.isPrefixOf key
      · simp only [hpre, if_true, Option.some.injEq] at h1
        obtain ⟨t, ht⟩ := List.isPrefixOf_iff_prefix.mp hpre
        show if cfg.keepPfx = true then key1 = key else pp ++ key1 = key
        cases hk : cfg.keepPfx with
        | true =>
          rw [hk] at h1
          simp only [if_true] at h1
          simp [h1]
        | false =>
          rw [hk] at h1
          simp only [Bool.false_eq_true, if_false] at h1
          simp only [Bool.false_eq_true, if_false]
          rw [← ht, List.drop_left] at h1
          rw [← h1, ht]
      · simp [hpre] at h1
  · unfold checkSfx at h2
    by_cases hsuf : (sfxPattern cfg).isSuffixOf key1
    · rw [if_pos hsuf] at h2
      injection h2 with h2
      obtain ⟨t, ht⟩ := List.isSuffixOf_iff_suffix.mp hsuf
      rw [← ht, List.length_append, Nat.add_sub_cancel, List.take_left] at h2
      rw [← h2, ht]
    · rw [if_neg hsuf] at h2
      cases h2

/-- Witness for C9 on the prefix P configuration and the key p_x_file. -/
theorem C9_strip_exact_witness :
    (match pfxPattern cfg4 with
     | some pp => if cfg4.keepPfx then str "x_file" = str "p_x_file"
                  else pp ++ str "x_file" = str "p_x_file"
     | none => str "x_file" = str "p_x_file") ∧
    str "x" ++ sfxPattern cfg4 = str "x_file" :=
  C9_strip_exact cfg4 (str "p_x_file") (str "x_file") (str "x") (by decide) (by decide)

/-- Claim C10: with keep_prefix set and a non-empty separator, the
separator-to-dot translation applies to the whole retained key,
including the kept prefix and its separator: with prefix C and separator
"_", the variable C_B_A_FILE yields the key c.b.a (not c_b.a). -/
theorem C10_keep_prefix_translated {ε α : Type} (loader : Str → Except ε (List (Str × α)))
    (v : Str) (mp : List (Str × α)) (hv : v ≠ []) (hl : loader v = Except.ok mp) :
    collect cfg10 loader [(str "C_B_A_FILE", v)] =
      Except.ok [(str "c.b.a", RVal.tagged (str "secret:" ++ str "c.b.a" ++ str ":" ++ v) mp)] := by
  unfold collect
  rw [List.foldl_cons, List.foldl_nil,
    step_nested cfg10 loader [] (str "C_B_A_FILE") v (str "c_b_a_file") (str "c_b_a") mp hv
      (by decide) (by decide) (by decide) hl]
  rfl

/-- Witness for C10 at a concrete loadable file. -/
theorem C10_keep_prefix_translated_witness :
    collect cfg10 ldOk [(str "C_B_A_FILE", str "/f")] =
      Except.ok [(str "c.b.a",
        RVal.tagged (str "secret:" ++ str "c.b.a" ++ str ":" ++ str "/f") [(str "k", 7)])] :=
  C10_keep_prefix_translated ldOk (str "/f") [(str "k", 7)] (by decide) rfl
